import Mathlib

/-!
Verification of the enum / pattern-matching core of the rustable repository
(`src/match.ts`).  The file is a shallow embedding: payload values are an
opaque type `α` (each value carries its own string conversion, passed as a
function `α → String` where needed), JavaScript objects used as pattern maps
are modelled with own properties and a prototype lookup, and the optional
`args?: any[]` field is an `Option (List α)`.

Two levels of embedding are given:

* a value-level model (`EnumVariant`, `Enum`, the operations `is`, `unwrap`,
  `unwrapTuple`, `toString`, `matchE`) in which arrays are immutable lists;
* a reference-level model (`Store`, `EnumRef` and the store-threaded
  operations) in which the payload array lives in a store of arrays and the
  descriptor holds a reference to it, as in JavaScript.  Each method of the
  source reads but never writes, so every store-threaded operation returns
  the store it was given; `unwrapTuple` returns the array reference itself,
  exactly as `return this.variant.args` does.
-/

namespace Rustable

/-- Embeds `interface EnumVariant { name: string; args?: any[] }` from
`src/match.ts`: the descriptor of the active variant.  `args = none` models
an absent (`undefined`) args field, `args = some l` a present array. -/
structure EnumVariant (α : Type) where
  name : String
  args : Option (List α)
deriving DecidableEq, Repr

/-- Embeds an instance of the abstract class `Enum` from `src/match.ts`: it
wraps exactly one variant descriptor (`private variant: EnumVariant`,
assigned once by the constructor). -/
structure Enum (α : Type) where
  variant : EnumVariant α
deriving DecidableEq, Repr

/-- Embeds the factory installed by the `variant` decorator in `src/match.ts`
(lines 27-33): `descriptor.value = function (...args) { return new
constructor({ name: propertyKey, args }); }`.  The rest-parameter array is
always present, so the descriptor stores `some args`. -/
def variantFactory (propertyKey : String) (args : List α) : Enum α :=
  { variant := { name := propertyKey, args := some args } }

/-- Embeds `Enum.is` from `src/match.ts`:
`return this.variant.name === variant`. -/
def Enum.is (e : Enum α) (v : String) : Bool :=
  e.variant.name == v

/-- The error message thrown by `unwrap` and `unwrapTuple` in
`src/match.ts` (the EmptyPayloadError of the spec). -/
def emptyPayloadMsg : String :=
  "Cannot unwrap a variant without arguments"

/-- Embeds `Enum.unwrap` from `src/match.ts`: throws when
`!this.variant.args || this.variant.args.length === 0`, otherwise returns
`this.variant.args[0]`.  A thrown error is an `Except.error`. -/
def Enum.unwrap (e : Enum α) : Except String α :=
  match e.variant.args with
  | none => .error emptyPayloadMsg
  | some [] => .error emptyPayloadMsg
  | some (x :: _) => .ok x

/-- Embeds `Enum.unwrapTuple` from `src/match.ts`: same guard as `unwrap`,
then returns the whole args array (here, at value level, its list of
elements). -/
def Enum.unwrapTuple (e : Enum α) : Except String (List α) :=
  match e.variant.args with
  | none => .error emptyPayloadMsg
  | some [] => .error emptyPayloadMsg
  | some (x :: xs) => .ok (x :: xs)

/-- Embeds `Enum.toString` from `src/match.ts`: the bare name when
`!this.variant.args || this.variant.args.length === 0`, otherwise
`name(args.join(', '))`.  `conv` is the string conversion each payload
value is converted with (JavaScript `String(...)` on the element); `join`
with separator `", "` is `String.intercalate ", "`. -/
def Enum.toString (conv : α → String) (e : Enum α) : String :=
  match e.variant.args with
  | none => e.variant.name
  | some [] => e.variant.name
  | some (x :: xs) =>
      e.variant.name ++ "(" ++ String.intercalate ", " ((x :: xs).map conv) ++ ")"

/-- A JavaScript object used as a pattern map: `own` is the own-property
table, `proto` the properties inherited through the prototype chain (for a
plain object literal, those of `Object.prototype`, which holds
function-valued members such as `toString`).  Values of absent properties,
and own properties explicitly set to `undefined`, are `none`. -/
structure JsObj (β : Type) where
  own : String → Option β
  proto : String → Option β

/-- JavaScript property access `o[k]`: the own property when present,
otherwise the prototype chain. -/
def JsObj.get (o : JsObj β) (k : String) : Option β :=
  match o.own k with
  | some v => some v
  | none => o.proto k

/-- The message of the NonExhaustiveMatchError thrown by `Enum.match` in
`src/match.ts`. -/
def nonExhaustiveMsg (variantName : String) : String :=
  "Non-exhaustive pattern matching: missing handler for variant '" ++ variantName ++ "'"

/-- Embeds `Enum.match` from `src/match.ts` (named `matchE` because `match`
is a Lean keyword).  A handler `(...args) => U` is a function from its
argument list:
`const handler = patterns[variantName] || defaultPatterns?.[variantName]`
(handlers are functions, hence truthy, so `||` falls through exactly on a
missing handler); then throw when no handler, call `handler()` when
`!args || args.length === 0`, else `handler(...args)`. -/
def Enum.matchE (e : Enum α) (patterns : JsObj (List α → β))
    (defaultPatterns : Option (JsObj (List α → β))) : Except String β :=
  let variantName := e.variant.name
  let handler : Option (List α → β) :=
    match patterns.get variantName with
    | some h => some h
    | none =>
        match defaultPatterns with
        | some d => d.get variantName
        | none => none
  match handler with
  | none => .error (nonExhaustiveMsg variantName)
  | some h =>
      match e.variant.args with
      | none => .ok (h [])
      | some [] => .ok (h [])
      | some (x :: xs) => .ok (h (x :: xs))

/-- The payload values the resolved handler is applied to: the args list
when present, the empty list when the field is absent. -/
def Enum.payloadValues (e : Enum α) : List α :=
  (e.variant.args).getD []

/-- Rendering of a non-empty payload as the spec words it: the values,
each converted via its own string conversion, joined by `", "` in original
order. -/
def joinComma (conv : α → String) : List α → String
  | [] => ""
  | [x] => conv x
  | x :: y :: ys => conv x ++ ", " ++ joinComma conv (y :: ys)

/-! ### The reference-level model (arrays as references into a store) -/

/-- A store of arrays: the heap as far as payload arrays are concerned.  A
reference is an index into `arrays`. -/
structure Store (α : Type) where
  arrays : List (List α)
deriving DecidableEq, Repr

/-- Reading the array a reference designates. -/
def Store.read (s : Store α) (r : Nat) : List α :=
  (s.arrays.get? r).getD []

/-- A caller-side mutation of the array a reference designates (for
example `push`ing onto an array obtained from `unwrapTuple`). -/
def Store.write (s : Store α) (r : Nat) (xs : List α) : Store α :=
  { arrays := s.arrays.set r xs }

/-- The reference-level variant descriptor: `args` is a reference to an
array in the store, or absent. -/
structure EnumRef where
  name : String
  args : Option Nat
deriving DecidableEq, Repr

/-- Reference-level embedding of the factory installed by the `variant`
decorator: `new constructor({ name: propertyKey, args })` allocates the
fresh rest-parameter array and stores a reference to it. -/
def variantFactoryS (s : Store α) (propertyKey : String) (args : List α) :
    EnumRef × Store α :=
  ({ name := propertyKey, args := some s.arrays.length },
   { arrays := s.arrays ++ [args] })

/-- Reference-level `Enum.is`: reads only the descriptor, writes nothing. -/
def EnumRef.isS (e : EnumRef) (v : String) (s : Store α) : Bool × Store α :=
  (e.name == v, s)

/-- Reference-level `Enum.unwrap`: reads the array through the reference,
writes nothing. -/
def EnumRef.unwrapS (e : EnumRef) (s : Store α) : Except String α × Store α :=
  match e.args with
  | none => (.error emptyPayloadMsg, s)
  | some r =>
      match s.read r with
      | [] => (.error emptyPayloadMsg, s)
      | x :: _ => (.ok x, s)

/-- Reference-level `Enum.unwrapTuple`: `return this.variant.args as T`
returns the array itself — the reference, not a copy — and writes
nothing. -/
def EnumRef.unwrapTupleS (e : EnumRef) (s : Store α) :
    Except String Nat × Store α :=
  match e.args with
  | none => (.error emptyPayloadMsg, s)
  | some r =>
      match s.read r with
      | [] => (.error emptyPayloadMsg, s)
      | _ :: _ => (.ok r, s)

/-- Reference-level `Enum.toString`: reads the array through the reference,
writes nothing. -/
def EnumRef.toStringS (e : EnumRef) (conv : α → String) (s : Store α) :
    String × Store α :=
  match e.args with
  | none => (e.name, s)
  | some r =>
      match s.read r with
      | [] => (e.name, s)
      | x :: xs =>
          (e.name ++ "(" ++ String.intercalate ", " ((x :: xs).map conv) ++ ")", s)

/-- Reference-level `Enum.match`: resolves the handler as at value level,
reads the args array through the reference, writes nothing. -/
def EnumRef.matchS (e : EnumRef) (patterns : JsObj (List α → β))
    (defaultPatterns : Option (JsObj (List α → β))) (s : Store α) :
    Except String β × Store α :=
  let handler : Option (List α → β) :=
    match patterns.get e.name with
    | some h => some h
    | none =>
        match defaultPatterns with
        | some d => d.get e.name
        | none => none
  match handler with
  | none => (.error (nonExhaustiveMsg e.name), s)
  | some h =>
      match e.args with
      | none => (.ok (h []), s)
      | some r =>
          match s.read r with
          | [] => (.ok (h []), s)
          | x :: xs => (.ok (h (x :: xs)), s)

/-! ### Concrete objects used by witnesses -/

/-- A pattern map whose single own entry keys `"Ok"` to a handler summing
nothing but returning the head, with an empty prototype. -/
def okPatterns : JsObj (List Nat → Nat) :=
  { own := fun k => if k == "Ok" then some (fun l => l.headD 0) else none,
    proto := fun _ => none }

/-- A pattern map with no own entries at all whose prototype, like
`Object.prototype` under a plain object literal, carries a function-valued
`toString` member. -/
def plainObjWithProto : JsObj (List Nat → String) :=
  { own := fun _ => none,
    proto := fun k => if k == "toString" then some (fun _ => "[object Undefined]") else none }

/-- An everywhere-empty pattern map (no own entries, empty prototype). -/
def emptyPatterns : JsObj (List Nat → Nat) :=
  { own := fun _ => none, proto := fun _ => none }

/-- The tail of a separator-join: the separator before each element. -/
def tailJoin (s : String) : List String → String
  | [] => ""
  | a :: as => s ++ a ++ tailJoin s as

theorem intercalate_go_eq (s : String) : ∀ (t : List String) (acc : String),
    String.intercalate.go acc s t = acc ++ tailJoin s t := by
  intro t
  induction t with
  | nil =>
      intro acc
      simp [String.intercalate.go, tailJoin]
  | cons a as ih =>
      intro acc
      show String.intercalate.go (acc ++ s ++ a) s as = acc ++ tailJoin s (a :: as)
      rw [ih]
      simp [tailJoin, String.append_assoc]

theorem joinComma_eq_tailJoin (conv : α → String) : ∀ (x : α) (xs : List α),
    joinComma conv (x :: xs) = conv x ++ tailJoin ", " (xs.map conv) := by
  intro x xs
  induction xs generalizing x with
  | nil => simp [joinComma, tailJoin]
  | cons y ys ih =>
      show conv x ++ ", " ++ joinComma conv (y :: ys) = conv x ++ tailJoin ", " ((y :: ys).map conv)
      rw [ih y]
      simp [tailJoin, String.append_assoc]

theorem intercalate_comma_eq_joinComma (conv : α → String) (l : List α) :
    String.intercalate ", " (l.map conv) = joinComma conv l := by
  cases l with
  | nil => rfl
  | cons x xs =>
      show String.intercalate.go (conv x) ", " (xs.map conv) = joinComma conv (x :: xs)
      rw [intercalate_go_eq, joinComma_eq_tailJoin]

/-- Store preservation of each store-threaded operation: shared by the
theorems about immutability and purity. -/
theorem isS_store_eq (e : EnumRef) (v : String) (s : Store α) :
    (e.isS v s).2 = s := rfl

theorem unwrapS_store_eq (e : EnumRef) (s : Store α) :
    (e.unwrapS s).2 = s := by
  unfold EnumRef.unwrapS
  rcases e.args with _ | r
  · rfl
  · rcases h : s.read r with _ | ⟨x, xs⟩ <;> simp [h]

theorem unwrapTupleS_store_eq (e : EnumRef) (s : Store α) :
    (e.unwrapTupleS s).2 = s := by
  unfold EnumRef.unwrapTupleS
  rcases e.args with _ | r
  · rfl
  · rcases h : s.read r with _ | ⟨x, xs⟩ <;> simp [h]

theorem toStringS_store_eq (e : EnumRef) (conv : α → String) (s : Store α) :
    (e.toStringS conv s).2 = s := by
  unfold EnumRef.toStringS
  rcases e.args with _ | r
  · rfl
  · rcases h : s.read r with _ | ⟨x, xs⟩ <;> simp [h]

theorem matchS_store_eq (e : EnumRef) (p : JsObj (List α → β))
    (d : Option (JsObj (List α → β))) (s : Store α) :
    (e.matchS p d s).2 = s := by
  unfold EnumRef.matchS
  rcases hh : (match p.get e.name with
    | some h => some h
    | none => match d with
      | some dd => dd.get e.name
      | none => none : Option (List α → β)) with _ | h
  · simp [hh]
  · simp only [hh]
    rcases e.args with _ | r
    · rfl
    · rcases hr : s.read r with _ | ⟨x, xs⟩ <;> simp [hr]

/-! ### The claims -/

/-- C1: `match` resolves the handler by looking up the active variant name
in `patterns` first (property access, so the conclusion is independent of
`defaultPatterns` whenever that lookup hits), falls back to
`defaultPatterns` only when the name is absent from `patterns`, and the
value returned is exactly the resolved handler applied once to the payload
values spread positionally (the empty argument list when the payload is
empty or absent) — that handler's result unchanged. -/
theorem match_resolution_and_invocation (α β : Type) (e : Enum α)
    (p : JsObj (List α → β)) (d : Option (JsObj (List α → β))) :
    (∀ h, p.get e.variant.name = some h →
        e.matchE p d = .ok (h e.payloadValues)) ∧
    (∀ dd h, p.get e.variant.name = none → d = some dd →
        dd.get e.variant.name = some h →
        e.matchE p d = .ok (h e.payloadValues)) := by
  constructor
  · intro h hp
    unfold Enum.matchE
    simp only [hp]
    rcases ha : e.variant.args with _ | ⟨_ | ⟨x, xs⟩⟩ <;>
      simp [Enum.payloadValues, ha]
  · intro dd h hp hd hdd
    unfold Enum.matchE
    simp only [hp, hd, hdd]
    rcases ha : e.variant.args with _ | ⟨_ | ⟨x, xs⟩⟩ <;>
      simp [Enum.payloadValues, ha]

/-- Witness for C1: both resolution branches at concrete inputs.  The
primary lookup hits `"Ok"` in `okPatterns`; the fallback branch fires for a
map with no entry, defaulting through a second map. -/
theorem match_resolution_and_invocation_witness :
    (variantFactory "Ok" [7] : Enum Nat).matchE okPatterns none = Except.ok 7 ∧
    (variantFactory "Ok" [7] : Enum Nat).matchE emptyPatterns (some okPatterns) = Except.ok 7 :=
  ⟨(match_resolution_and_invocation Nat Nat (variantFactory "Ok" [7]) okPatterns none).1
      (fun l => l.headD 0) rfl,
   (match_resolution_and_invocation Nat Nat (variantFactory "Ok" [7]) emptyPatterns
      (some okPatterns)).2 okPatterns (fun l => l.headD 0) rfl rfl rfl⟩

/-- C2: when the active variant name has a handler neither in `patterns`
nor in `defaultPatterns`, `match` throws the non-exhaustive error, whose
message contains the missing variant name. -/
theorem match_nonexhaustive_error (α β : Type) (e : Enum α)
    (p : JsObj (List α → β)) (d : Option (JsObj (List α → β)))
    (hp : p.get e.variant.name = none)
    (hd : ∀ dd, d = some dd → dd.get e.variant.name = none) :
    e.matchE p d = .error (nonExhaustiveMsg e.variant.name) ∧
    ∃ pre post, nonExhaustiveMsg e.variant.name = pre ++ e.variant.name ++ post := by
  refine ⟨?_, "Non-exhaustive pattern matching: missing handler for variant '", "'", rfl⟩
  unfold Enum.matchE
  rcases d with _ | dd
  · simp [hp]
  · simp [hp, hd dd rfl]

/-- Witness for C2 at a concrete instance and empty maps. -/
theorem match_nonexhaustive_error_witness :
    (variantFactory "Missing" ([] : List Nat)).matchE emptyPatterns none =
      Except.error "Non-exhaustive pattern matching: missing handler for variant 'Missing'" :=
  (match_nonexhaustive_error Nat Nat (variantFactory "Missing" []) emptyPatterns none
      rfl (fun _ h => Option.noConfusion h)).1

/-- C3: the factory installed for a variant name `v`, applied to a payload
`p`, routes through the concrete constructor and yields an instance whose
descriptor is `{name := v, args := some p}`; on it `is v` is true and
`is w` is false for every `w ≠ v`. -/
theorem variantFactory_descriptor_is (α : Type) (v : String) (p : List α)
    (w : String) (hw : w ≠ v) :
    (variantFactory v p : Enum α).variant = { name := v, args := some p } ∧
    (variantFactory v p : Enum α).is v = true ∧
    (variantFactory v p : Enum α).is w = false := by
  refine ⟨rfl, ?_, ?_⟩
  · simp [variantFactory, Enum.is]
  · simp only [variantFactory, Enum.is, beq_eq_false_iff_ne, ne_eq]
    exact fun h => hw h.symm

/-- Witness for C3: a two-variant scenario at concrete names. -/
theorem variantFactory_descriptor_is_witness :
    (variantFactory "Ok" [1, 2] : Enum Nat).variant = { name := "Ok", args := some [1, 2] } ∧
    (variantFactory "Ok" [1, 2] : Enum Nat).is "Ok" = true ∧
    (variantFactory "Ok" [1, 2] : Enum Nat).is "Err" = false :=
  variantFactory_descriptor_is Nat "Ok" [1, 2] "Err" (by decide)

/-- C4: on an instance whose payload is empty (an empty args array, or the
args field absent altogether), both `unwrap` and `unwrapTuple` throw the
EmptyPayloadError, whatever the variant name. -/
theorem unwrap_unwrapTuple_empty_payload (α : Type) (e : Enum α)
    (h : e.variant.args = some [] ∨ e.variant.args = none) :
    e.unwrap = .error emptyPayloadMsg ∧ e.unwrapTuple = .error emptyPayloadMsg := by
  rcases h with h | h <;> simp [Enum.unwrap, Enum.unwrapTuple, h]

/-- Witness for C4 at a concrete payload-free instance. -/
theorem unwrap_unwrapTuple_empty_payload_witness :
    (variantFactory "Active" ([] : List Nat)).unwrap = .error emptyPayloadMsg ∧
    (variantFactory "Active" ([] : List Nat)).unwrapTuple = .error emptyPayloadMsg :=
  unwrap_unwrapTuple_empty_payload Nat (variantFactory "Active" []) (Or.inl rfl)

/-- C5: `toString` renders exactly the variant name on an empty (or absent)
payload, and otherwise the variant name followed, in parentheses, by the
payload values, each converted via its own string conversion, joined by
`", "` in original order (`joinComma` spells out that join; the lemma
`intercalate_comma_eq_joinComma` connects it to the array `join` the code
calls).  `Enum.toString` is a total function into `String`, so it throws
nothing. -/
theorem toString_rendering (α : Type) (conv : α → String) (e : Enum α) :
    ((e.variant.args = none ∨ e.variant.args = some []) →
        e.toString conv = e.variant.name) ∧
    (∀ x xs, e.variant.args = some (x :: xs) →
        e.toString conv = e.variant.name ++ "(" ++ joinComma conv (x :: xs) ++ ")") := by
  constructor
  · rintro (h | h) <;> simp [Enum.toString, h]
  · intro x xs h
    simp only [Enum.toString, h]
    rw [intercalate_comma_eq_joinComma]

/-- Witness for C5: the spec's own end-to-end examples. -/
theorem toString_rendering_witness :
    (variantFactory "Failed" [404]).toString Nat.repr = "Failed(404)" ∧
    (variantFactory "Active" ([] : List Nat)).toString Nat.repr = "Active" :=
  ⟨((toString_rendering Nat Nat.repr (variantFactory "Failed" [404])).2 404 [] rfl).trans rfl,
   (toString_rendering Nat Nat.repr (variantFactory "Active" [])).1 (Or.inr rfl)⟩

/-- C6: on an instance with a non-empty payload, `unwrap` returns the very
value stored at position 0 and `unwrapTuple` the full payload in original
order; neither consults the variant name (the last conjunct: the same
payload under any name unwraps to the same value). -/
theorem unwrap_unwrapTuple_nonempty (α : Type) (e : Enum α) (x : α) (xs : List α)
    (h : e.variant.args = some (x :: xs)) :
    e.unwrap = .ok x ∧ e.unwrapTuple = .ok (x :: xs) ∧
    (∀ n : String, (Enum.mk { name := n, args := some (x :: xs) }).unwrap = .ok x) := by
  refine ⟨?_, ?_, fun n => rfl⟩ <;> simp [Enum.unwrap, Enum.unwrapTuple, h]

/-- Witness for C6 at a concrete two-value payload. -/
theorem unwrap_unwrapTuple_nonempty_witness :
    (variantFactory "Err" [5, 6] : Enum Nat).unwrap = .ok 5 ∧
    (variantFactory "Err" [5, 6] : Enum Nat).unwrapTuple = .ok [5, 6] ∧
    (∀ n : String, (Enum.mk { name := n, args := some [5, 6] } : Enum Nat).unwrap = .ok 5) :=
  unwrap_unwrapTuple_nonempty Nat (variantFactory "Err" [5, 6]) 5 [6] rfl

/-- C7, counterexample: the claim "no caller can mutate the descriptor
after construction" fails at the reference level.  Constructing
`Failed(404)` on an empty store yields a descriptor holding a reference to
array 0; `unwrapTuple` returns that very reference (`return
this.variant.args` makes no copy), so a caller pushing `9` onto the
returned array (the `Store.write`) changes the payload every later
operation observes: `toString` now renders `"Failed(404, 9)"` and the
instance still reads the mutated array through its descriptor. -/
theorem payload_mutable_through_unwrapTuple_cex :
    variantFactoryS (Store.mk ([] : List (List Nat))) "Failed" [404] =
      ({ name := "Failed", args := some 0 }, Store.mk [[404]]) ∧
    (EnumRef.unwrapTupleS { name := "Failed", args := some 0 } (Store.mk [[404]])).1 =
      Except.ok 0 ∧
    (EnumRef.toStringS { name := "Failed", args := some 0 } Nat.repr (Store.mk [[404]])).1 =
      "Failed(404)" ∧
    Store.write (Store.mk [[404]]) 0 (Store.read (Store.mk [[404]]) 0 ++ [9]) =
      Store.mk [[404, 9]] ∧
    (EnumRef.toStringS { name := "Failed", args := some 0 } Nat.repr (Store.mk [[404, 9]])).1 =
      "Failed(404, 9)" ∧
    (EnumRef.unwrapS { name := "Failed", args := some 0 } (Store.mk [[404, 9]])).1 =
      Except.ok 404 :=
  ⟨rfl, rfl, rfl, rfl, rfl, rfl⟩

/-- C7 as amended: the component's own operations are read-only — none of
`is`, `unwrap`, `unwrapTuple`, `toString`, `match` writes the store (so
none changes any descriptor's name or payload) — while exclusive ownership
of the payload fails: `unwrapTuple`, when it succeeds, hands out the very
reference the descriptor holds, through which a caller can mutate the
payload (the counterexample). -/
theorem operations_read_only (α β : Type) (e : EnumRef) (v : String)
    (conv : α → String) (p : JsObj (List α → β))
    (d : Option (JsObj (List α → β))) (s : Store α) :
    (e.isS v s).2 = s ∧ (e.unwrapS s).2 = s ∧ (e.unwrapTupleS s).2 = s ∧
    (e.toStringS conv s).2 = s ∧ (e.matchS p d s).2 = s ∧
    (∀ r, (e.unwrapTupleS s).1 = .ok r → e.args = some r) :=
  ⟨isS_store_eq e v s, unwrapS_store_eq e s, unwrapTupleS_store_eq e s,
   toStringS_store_eq e conv s, matchS_store_eq e p d s, by
    intro r hr
    unfold EnumRef.unwrapTupleS at hr
    rcases he : e.args with _ | r'
    · rw [he] at hr
      simp at hr
    · rw [he] at hr
      rcases hl : s.read r' with _ | ⟨x, xs⟩
      · simp [hl] at hr
      · simp [hl] at hr
        simp [hr]⟩

/-- Witness for C7's amended theorem: the reference-returning conjunct
discharged at a concrete instance and store. -/
theorem operations_read_only_witness :
    ({ name := "Failed", args := some 0 } : EnumRef).args = some 0 :=
  (operations_read_only Nat Nat { name := "Failed", args := some 0 } "Failed"
      Nat.repr emptyPatterns none (Store.mk [[404]])).2.2.2.2.2 0 rfl

/-- C8: every operation is a pure, terminating computation (each is a total
Lean function of its arguments) whose only effect on the store of payload
arrays is the factory's allocation: construction appends exactly the one
fresh rest-argument array and touches nothing else, and `is`, `unwrap`,
`unwrapTuple`, `toString` and `match` leave the store exactly as given. -/
theorem operations_pure_allocation_only (α β : Type) (s : Store α)
    (n v : String) (args : List α) (e : EnumRef) (conv : α → String)
    (p : JsObj (List α → β)) (d : Option (JsObj (List α → β))) :
    (variantFactoryS s n args).2.arrays = s.arrays ++ [args] ∧
    (variantFactoryS s n args).1 = { name := n, args := some s.arrays.length } ∧
    (e.isS v s).2 = s ∧ (e.unwrapS s).2 = s ∧ (e.unwrapTupleS s).2 = s ∧
    (e.toStringS conv s).2 = s ∧ (e.matchS p d s).2 = s :=
  ⟨rfl, rfl, isS_store_eq e v s, unwrapS_store_eq e s, unwrapTupleS_store_eq e s,
   toStringS_store_eq e conv s, matchS_store_eq e p d s⟩

/-- C9: an instance whose descriptor has no args field at all behaves, on
every operation, exactly like one whose args array is present but empty —
the guard `!this.variant.args || this.variant.args.length === 0` conflates
the two: `toString` renders the bare name, `unwrap` and `unwrapTuple`
throw the EmptyPayloadError, and `match` calls the resolved handler with
zero arguments. -/
theorem absent_args_behaves_as_empty (α β : Type) (n : String)
    (conv : α → String) (p : JsObj (List α → β))
    (d : Option (JsObj (List α → β))) :
    (Enum.mk ⟨n, none⟩ : Enum α).toString conv = (Enum.mk ⟨n, some []⟩ : Enum α).toString conv ∧
    (Enum.mk ⟨n, none⟩ : Enum α).unwrap = (Enum.mk ⟨n, some []⟩ : Enum α).unwrap ∧
    (Enum.mk ⟨n, none⟩ : Enum α).unwrapTuple = (Enum.mk ⟨n, some []⟩ : Enum α).unwrapTuple ∧
    (Enum.mk ⟨n, none⟩ : Enum α).matchE p d = (Enum.mk ⟨n, some []⟩ : Enum α).matchE p d ∧
    (Enum.mk ⟨n, none⟩ : Enum α).toString conv = n ∧
    (Enum.mk ⟨n, none⟩ : Enum α).unwrap = .error emptyPayloadMsg ∧
    (Enum.mk ⟨n, none⟩ : Enum α).unwrapTuple = .error emptyPayloadMsg ∧
    (∀ h, p.get n = some h → (Enum.mk ⟨n, none⟩ : Enum α).matchE p d = .ok (h [])) := by
  refine ⟨rfl, rfl, rfl, ?_, rfl, rfl, rfl, ?_⟩
  · unfold Enum.matchE
    rcases hh : p.get n with _ | h <;> simp [hh]
  · intro h hp
    unfold Enum.matchE
    simp [hp]

/-- Witness for C9: `match` on an instance with no args field invokes the
handler resolved for its name with zero arguments. -/
theorem absent_args_behaves_as_empty_witness :
    (Enum.mk ⟨"Ok", none⟩ : Enum Nat).matchE okPatterns none = Except.ok 0 :=
  (absent_args_behaves_as_empty Nat Nat "Ok" Nat.repr okPatterns none).2.2.2.2.2.2.2
    (fun l => l.headD 0) rfl

/-- C10: handler lookup is ordinary property access, so it reaches
inherited properties.  For the concrete instance whose variant is named
`"toString"` and a plain-object pattern map with no own entry for that
name, `match` does not throw the non-exhaustive error: the function-valued
`toString` inherited from the prototype is invoked as the handler and its
result returned. -/
theorem inherited_prototype_property_used_as_handler :
    plainObjWithProto.own "toString" = none ∧
    (Enum.mk ⟨"toString", some []⟩ : Enum Nat).matchE plainObjWithProto none =
      Except.ok "[object Undefined]" ∧
    (Enum.mk ⟨"toString", some []⟩ : Enum Nat).matchE plainObjWithProto none ≠
      Except.error (nonExhaustiveMsg "toString") := by
  refine ⟨rfl, rfl, fun hc => ?_⟩
  rw [show (Enum.mk ⟨"toString", some []⟩ : Enum Nat).matchE plainObjWithProto none =
        Except.ok "[object Undefined]" from rfl] at hc
  exact Except.noConfusion hc

end Rustable
